import Mathlib

/-!
Verification development for the acetime zone-processor core
(`src/acetime/zone_processor.py`, `src/acetime/common.py`,
`src/acetime/transition.py`).

The Python code is shallowly embedded: each Python function used by the
properties below is translated into an executable Lean definition of the
same name (Python's `datetime`/`date` arithmetic is modelled by explicit
proleptic-Gregorian ordinal arithmetic, exactly as CPython implements it).
Machine integers do not overflow in Python, so plain `Int` is used.
-/

namespace AceTime

/-! ## Constants (common.py) -/

/-- common.py: `INVALID_YEAR = -32768`. -/
def INVALID_YEAR : Int := -32768

/-- common.py: `MIN_YEAR = -32767`. -/
def MIN_YEAR : Int := -32767

/-- common.py: `MAX_UNTIL_YEAR = 32767`. -/
def MAX_UNTIL_YEAR : Int := 32767

/-- common.py: `MAX_TO_YEAR = MAX_UNTIL_YEAR - 1`. -/
def MAX_TO_YEAR : Int := MAX_UNTIL_YEAR - 1

/-- common.py: `EPOCH_YEAR = 2050`. -/
def EPOCH_YEAR : Int := 2050

/-! ## Proleptic Gregorian calendar arithmetic

This models the arithmetic performed by Python's `datetime.date` /
`datetime.datetime` classes (CPython `Lib/datetime.py`): `toordinal`,
`fromordinal`, `isoweekday`, and addition of a `timedelta`.
Python's `//` and `%` are floor division and floor modulus, which for the
divisors used here (all positive) coincide with `Int.fdiv` / `Int.fmod`.
-/

/-- Gregorian leap-year rule, as in common.py `days_in_year_month`. -/
def isLeap (year : Int) : Bool :=
  year % 4 == 0 && (year % 100 != 0 || year % 400 == 0)

/-- common.py: `DAYS_IN_MONTH = [31, 28, 31, 30, 31, 30, 31, 31, 30, 31, 30, 31]`. -/
def DAYS_IN_MONTH : List Int := [31, 28, 31, 30, 31, 30, 31, 31, 30, 31, 30, 31]

/-- common.py `days_in_year_month(year, month)`: number of days in the month;
the month may be 0 (December of previous year) or 13 (January of next year)
through the `(month - 1) % 12` index. -/
def days_in_year_month (year month : Int) : Int :=
  let days := DAYS_IN_MONTH.getD ((month - 1).fmod 12).toNat 0
  if month == 2 then days + (if isLeap year then 1 else 0) else days

/-- CPython `_days_before_year(year)`: days between 0001-01-01 and
January 1 of `year`. -/
def daysBeforeYear (year : Int) : Int :=
  let y := year - 1
  y * 365 + y.fdiv 4 - y.fdiv 100 + y.fdiv 400

/-- Cumulative days before each month in a non-leap year (CPython
`_DAYS_BEFORE_MONTH`), indexed by `month - 1`. -/
def DAYS_BEFORE_MONTH : List Int :=
  [0, 31, 59, 90, 120, 151, 181, 212, 243, 273, 304, 334]

/-- CPython `_days_before_month(year, month)`. -/
def daysBeforeMonth (year month : Int) : Int :=
  DAYS_BEFORE_MONTH.getD (month - 1).toNat 0
    + (if 2 < month && isLeap year then 1 else 0)

/-- CPython `date.toordinal()`: proleptic Gregorian ordinal of (y, M, d),
with 0001-01-01 having ordinal 1. -/
def toOrdinal (y M d : Int) : Int :=
  daysBeforeYear y + daysBeforeMonth y M + d

/-- Month search of CPython `_ord2ymd`: given the year and a 0-based day
index `n` within that year, return (month, day). Fuel-driven recursion over
the at most 12 months. -/
def monthDayInYear (year : Int) : Nat → Int → Int → Int × Int
  | 0, month, n => (month, n + 1)
  | fuel + 1, month, n =>
      let dim := days_in_year_month year month
      if n < dim then (month, n + 1)
      else monthDayInYear year fuel (month + 1) (n - dim)

/-- CPython `date.fromordinal` (`_ord2ymd`): inverse of `toOrdinal`, via the
400/100/4/1-year cycle divisions. -/
def fromOrdinal (n : Int) : Int × Int × Int :=
  let n0 := n - 1
  let n400 := n0.fdiv 146097
  let r1 := n0.fmod 146097
  let n100 := r1.fdiv 36524
  let r2 := r1.fmod 36524
  let n4 := r2.fdiv 1461
  let r3 := r2.fmod 1461
  let n1 := r3.fdiv 365
  let r4 := r3.fmod 365
  let year := n400 * 400 + n100 * 100 + n4 * 4 + n1 + 1
  if n1 == 4 || n100 == 4 then (year - 1, 12, 31)
  else
    let md := monthDayInYear year 11 1 r4
    (year, md.1, md.2)

/-- CPython `date.isoweekday()`: Monday = 1 .. Sunday = 7. -/
def isoweekday (y M d : Int) : Int :=
  let r := (toOrdinal y M d).fmod 7
  if r == 0 then 7 else r

/-- `datetime(y, M, d) + timedelta(seconds=secs)` followed by reading back
(year, month, day, seconds-within-day). -/
def datetimeAddSeconds (y M d secs : Int) : Int × Int × Int × Int :=
  let total := toOrdinal y M d * 86400 + secs
  let ord := total.fdiv 86400
  let ss := total.fmod 86400
  let ymd := fromOrdinal ord
  (ymd.1, ymd.2.1, ymd.2.2, ss)

/-! ## common.py day-of-month calculation -/

/-- common.py `calc_day_of_month(year, month, on_day_of_week, on_day_of_month)`:
actual (month, day) of rule expressions such as "lastSun", "Sun>=8", "Mon<=20". -/
def calc_day_of_month (year month on_day_of_week on_day_of_month : Int) :
    Int × Int :=
  if on_day_of_week == 0 then (month, on_day_of_month)
  else if on_day_of_month >= 0 then
    let days_in_month := days_in_year_month year month
    let odm := if on_day_of_month == 0 then days_in_month - 6
               else on_day_of_month
    let day_of_week_shift := (on_day_of_week - isoweekday year month odm + 7).fmod 7
    let day := odm + day_of_week_shift
    if day > days_in_month then (month + 1, day - days_in_month)
    else (month, day)
  else
    let odm := -on_day_of_month
    let day_of_week_shift := (isoweekday year month odm - on_day_of_week + 7).fmod 7
    let day := odm - day_of_week_shift
    if day < 1 then (month - 1, day + days_in_year_month year (month - 1))
    else (month, day)

/-! ## DateTuple algebra (zone_processor.py) -/

/-- Time suffix of a `DateTuple` ('w', 's' or 'u'); Python compares these as
one-character strings, for which the ASCII order is 's' < 'u' < 'w'. -/
inductive TimeSuffix where
  | s
  | u
  | w
deriving DecidableEq, Repr, Inhabited

/-- Rank realizing the ASCII string order 's' < 'u' < 'w'. -/
def suffixRank : TimeSuffix → Int
  | .s => 0
  | .u => 1
  | .w => 2

/-- zone_processor.py `DateTuple(y, M, d, ss, f)`: a date-time with
seconds-within-day instead of h:m:s, plus the suffix field `f`. -/
structure DateTuple where
  y : Int
  M : Int
  d : Int
  ss : Int
  f : TimeSuffix
deriving DecidableEq, Repr, Inhabited

/-- Python `NamedTuple` comparison `a < b`: lexicographic over
(y, M, d, ss, f). -/
def dtLtB (a b : DateTuple) : Bool :=
  a.y < b.y || (a.y == b.y &&
    (a.M < b.M || (a.M == b.M &&
      (a.d < b.d || (a.d == b.d &&
        (a.ss < b.ss || (a.ss == b.ss &&
          suffixRank a.f < suffixRank b.f)))))))

/-- Python `NamedTuple` comparison `a <= b` (lexicographic). -/
def dtLeB (a b : DateTuple) : Bool :=
  dtLtB a b || a == b

/-- zone_processor.py `_subtract_date_tuple(a, b)`: seconds in `a - b`,
ignoring the suffix field (via `date.toordinal`). -/
def _subtract_date_tuple (a b : DateTuple) : Int :=
  (toOrdinal a.y a.M a.d - toOrdinal b.y b.M b.d) * 86400 + (a.ss - b.ss)

/-- zone_processor.py `_normalize_date_tuple(tt)`: sentinel for `MIN_YEAR`,
otherwise `datetime(y, M, d) + timedelta(seconds=ss)` re-read as a tuple. -/
def _normalize_date_tuple (tt : DateTuple) : DateTuple :=
  if tt.y == MIN_YEAR then ⟨MIN_YEAR, 1, 1, 0, tt.f⟩
  else
    let r := datetimeAddSeconds tt.y tt.M tt.d tt.ss
    ⟨r.1, r.2.1, r.2.2.1, r.2.2.2, tt.f⟩

/-! ## Zonedb data structures (zone_info_types.py) -/

/-- zone_info_types.py `ZoneRule`. -/
structure ZoneRule where
  from_year : Int
  to_year : Int
  in_month : Int
  on_day_of_week : Int
  on_day_of_month : Int
  at_seconds : Int
  at_time_suffix : TimeSuffix
  delta_seconds : Int
  letter : String
deriving DecidableEq, Repr, Inhabited

/-- zone_info_types.py `ZonePolicy`. -/
structure ZonePolicy where
  name : String
  rules : List ZoneRule
deriving DecidableEq, Repr, Inhabited

/-- The `zone_policy` field of a `ZoneEra`: the sentinel strings `'-'` and
`':'`, or a named `ZonePolicy`. -/
inductive ZonePolicyRef where
  | dash
  | colon
  | named (policy : ZonePolicy)
deriving DecidableEq, Repr, Inhabited

/-- zone_info_types.py `ZoneEra`. -/
structure ZoneEra where
  offset_seconds : Int
  zone_policy : ZonePolicyRef
  rules_delta_seconds : Int
  format : String
  until_year : Int
  until_month : Int
  until_day : Int
  until_seconds : Int
  until_time_suffix : TimeSuffix
deriving DecidableEq, Repr, Inhabited

/-! ## MatchingEra and Transition (zone_processor.py) -/

/-- zone_processor.py `MatchingEra`: a ZoneEra clipped to the 14-month
window of interest. -/
structure MatchingEra where
  start_date_time : DateTuple
  until_date_time : DateTuple
  zone_era : ZoneEra
deriving DecidableEq, Repr, Inhabited

/-- zone_processor.py `Transition`. Fields that the Python constructor
initializes to `None` and that are consulted for `None`-ness
(`zone_rule`, `original_transition_time`) are `Option`s; the rest are set
by the pipeline before being read. -/
structure Transition where
  matching_era : MatchingEra
  transition_time : DateTuple
  transition_time_s : DateTuple
  transition_time_u : DateTuple
  start_date_time : DateTuple
  until_date_time : DateTuple
  start_epoch_second : Int
  original_transition_time : Option DateTuple
  abbrevStr : String
  zone_rule : Option ZoneRule
  is_active : Bool
deriving DecidableEq, Repr, Inhabited

/-- `Transition.offset_seconds` property: the standard offset of the era. -/
def Transition.offsetSeconds (t : Transition) : Int :=
  t.matching_era.zone_era.offset_seconds

/-- `Transition.delta_seconds` property: the rule's DST delta, or the era's
`rules_delta_seconds` for a simple era. -/
def Transition.deltaSeconds (t : Transition) : Int :=
  match t.zone_rule with
  | some rule => rule.delta_seconds
  | none => t.matching_era.zone_era.rules_delta_seconds

/-- zone_processor.py `OffsetInfo`. -/
structure OffsetInfo where
  total_offset : Int
  utc_offset : Int
  dst_offset : Int
  abbrevStr : String
  fold : Int
deriving DecidableEq, Repr, Inhabited

/-- zone_processor.py `_to_offset_info(transition, fold)`. -/
def _to_offset_info (transition : Transition) (fold : Int) : OffsetInfo :=
  { total_offset := transition.offsetSeconds + transition.deltaSeconds
    utc_offset := transition.offsetSeconds
    dst_offset := transition.deltaSeconds
    abbrevStr := transition.abbrevStr
    fold := fold }

/-! ## Epoch constants (common.py vs zone_processor.py) -/

/-- Proleptic Gregorian ordinal of the Unix epoch 1970-01-01. -/
def unixEpochOrdinal : Int := toOrdinal 1970 1 1

/-- common.py `SECONDS_SINCE_UNIX_EPOCH`: seconds from the Unix epoch to
`datetime(EPOCH_YEAR, 1, 1, tzinfo=utc)`, i.e. the 2050 epoch. -/
def SECONDS_SINCE_UNIX_EPOCH : Int :=
  (toOrdinal EPOCH_YEAR 1 1 - unixEpochOrdinal) * 86400

/-- zone_processor.py line 69: `ACETIME_EPOCH = datetime(2000, 1, 1)`,
expressed as its offset in seconds from the Unix epoch. -/
def ACETIME_EPOCH_unix_seconds : Int :=
  (toOrdinal 2000 1 1 - unixEpochOrdinal) * 86400

/-- zone_processor.py `_init_for_second(epoch_seconds)`: the year of
`datetime.utcfromtimestamp(epoch_seconds + SECONDS_SINCE_UNIX_EPOCH)`,
which is then passed to `init_for_year`. -/
def _init_for_second_year (epoch_seconds : Int) : Int :=
  let unix := epoch_seconds + SECONDS_SINCE_UNIX_EPOCH
  (fromOrdinal (unix.fdiv 86400 + unixEpochOrdinal)).1

/-! ## _expand_date_tuple (zone_processor.py) -/

/-- zone_processor.py `_expand_date_tuple(dt, offset_seconds, delta_seconds)`:
produce the normalized (wall, standard, utc) versions of `dt`.
(The Python guards `delta_seconds if delta_seconds else 0` only replace a
`None` by 0 and are identities on integers.) -/
def _expand_date_tuple (dt : DateTuple) (offset_seconds delta_seconds : Int) :
    DateTuple × DateTuple × DateTuple :=
  let raw : DateTuple × DateTuple × DateTuple :=
    match dt.f with
    | .w =>
        (dt,
         ⟨dt.y, dt.M, dt.d, dt.ss - delta_seconds, .s⟩,
         ⟨dt.y, dt.M, dt.d, dt.ss - delta_seconds - offset_seconds, .u⟩)
    | .s =>
        (⟨dt.y, dt.M, dt.d, dt.ss + delta_seconds, .w⟩,
         dt,
         ⟨dt.y, dt.M, dt.d, dt.ss - offset_seconds, .u⟩)
    | .u =>
        (⟨dt.y, dt.M, dt.d, dt.ss + delta_seconds + offset_seconds, .w⟩,
         ⟨dt.y, dt.M, dt.d, dt.ss + offset_seconds, .s⟩,
         dt)
  (_normalize_date_tuple raw.1, _normalize_date_tuple raw.2.1,
   _normalize_date_tuple raw.2.2)

/-! ## _generate_start_until_times (zone_processor.py) -/

/-- Body of the `_generate_start_until_times` loop for one transition:
compute `start_date_time` (the wall transition time shifted from the
previous transition's UTC offset to this transition's own) and
`start_epoch_second` (seconds of `start_date_time` minus the transition's
total UTC offset, counted from `ACETIME_EPOCH = datetime(2000, 1, 1)`). -/
def setStartAndEpoch (prev transition : Transition) : Transition :=
  let tt := transition.transition_time
  let secs := tt.ss - prev.offsetSeconds - prev.deltaSeconds
      + transition.offsetSeconds + transition.deltaSeconds
  let r := datetimeAddSeconds tt.y tt.M tt.d secs
  let st : DateTuple := ⟨r.1, r.2.1, r.2.2.1, r.2.2.2, tt.f⟩
  let utc_offset_seconds := transition.offsetSeconds + transition.deltaSeconds
  let epoch_second :=
    (toOrdinal st.y st.M st.d - unixEpochOrdinal) * 86400 + st.ss
      - utc_offset_seconds - ACETIME_EPOCH_unix_seconds
  { transition with start_date_time := st, start_epoch_second := epoch_second }

/-- Final fix of `_generate_start_until_times`: the last transition's
`until_date_time` is replaced by the wall component of its expansion. -/
def finalizeUntil (t : Transition) : Transition :=
  { t with until_date_time :=
      (_expand_date_tuple t.until_date_time t.offsetSeconds t.deltaSeconds).1 }

/-- Tail of the `_generate_start_until_times` loop. `prev` is the
previously processed transition (already carrying its updated
`start_date_time`/`start_epoch_second`); when a next transition exists, the
Python code mutates `prev.until_date_time` to the next transition's
`transition_time` before emitting it, and after the loop it expands the
last transition's `until_date_time`. -/
def genStartUntilAux (prev : Transition) : List Transition → List Transition
  | [] => [finalizeUntil prev]
  | t :: rest =>
      let t2 := setStartAndEpoch prev t
      { prev with until_date_time := t.transition_time } :: genStartUntilAux t2 rest

/-- zone_processor.py `_generate_start_until_times(transitions)`. The Python
code bootstraps `prev` with `transitions[0]` itself (and raises on an empty
list, which the pipeline never produces; the empty case here returns `[]`). -/
def _generate_start_until_times (transitions : List Transition) :
    List Transition :=
  match transitions with
  | [] => []
  | t0 :: rest => genStartUntilAux (setStartAndEpoch t0 t0) rest

/-! ## TransitionStorage (zone_processor.py / transition.py) -/

/-- zone_processor.py `TransitionStorage`: the pool-bookkeeping cursors.
`index_free` is the current in-flight count, `index_beyond` the high-water
mark (both identical in zone_processor.py and transition.py). -/
structure TransitionStorage where
  index_free : Int
  index_beyond : Int
deriving DecidableEq, Repr, Inhabited

/-- `TransitionStorage.clear()` (also the state after `__init__`). -/
def TransitionStorage.clearState : TransitionStorage :=
  { index_free := 0, index_beyond := 0 }

/-- `TransitionStorage.push_transitions(delta)`. -/
def TransitionStorage.push_transitions (s : TransitionStorage) (delta : Int) :
    TransitionStorage :=
  let free := s.index_free + delta
  { index_free := free
    index_beyond := if free > s.index_beyond then free else s.index_beyond }

/-- `TransitionStorage.pop_transitions(delta)`: an unguarded subtraction. -/
def TransitionStorage.pop_transitions (s : TransitionStorage) (delta : Int) :
    TransitionStorage :=
  { s with index_free := s.index_free - delta }

/-- One call to `push_transitions` or `pop_transitions`; the arguments used
by the zone processor are list lengths or 1, hence natural numbers. -/
inductive StorageOp where
  | push (n : Nat)
  | pop (n : Nat)
deriving DecidableEq, Repr

/-- Apply one storage operation. -/
def applyStorageOp (s : TransitionStorage) : StorageOp → TransitionStorage
  | .push n => s.push_transitions n
  | .pop n => s.pop_transitions n

/-- Run a sequence of push/pop calls. -/
def runStorageOps (s : TransitionStorage) (ops : List StorageOp) :
    TransitionStorage :=
  ops.foldl applyStorageOp s

/-- The pop-safety discipline the zone processor's call sites follow: each
`pop_transitions(n)` removes at most the transitions currently in flight. -/
def popsBounded : TransitionStorage → List StorageOp → Bool
  | _, [] => true
  | s, .push n :: rest => popsBounded (applyStorageOp s (.push n)) rest
  | s, .pop n :: rest =>
      decide ((n : Int) ≤ s.index_free)
        && popsBounded (applyStorageOp s (.pop n)) rest

/-! ## Rule-year helpers (zone_processor.py) -/

/-- zone_processor.py `_get_most_recent_prior_year(from_year, to_year,
start_year, end_year)`. (`end_year` is accepted and ignored, as in the
source.) -/
def _get_most_recent_prior_year (from_year to_year start_year _end_year : Int) :
    Int :=
  if from_year < start_year then
    if to_year < start_year then to_year else start_year - 1
  else
    -1

/-! ## Lookup by epoch seconds (zone_processor.py) -/

/-- Loop of `_find_transition_for_seconds`: scan with index `i` and running
`matching_index` `m`; break at the first transition whose
`start_epoch_second` exceeds the query. -/
def matchingIndexGo (epoch_seconds : Int) :
    List Transition → Nat → Int → Int
  | [], _, m => m
  | t :: rest, i, m =>
      if t.start_epoch_second > epoch_seconds then m
      else matchingIndexGo epoch_seconds rest (i + 1) i

/-- The `matching_index` computed by `_find_transition_for_seconds`
(`-1` when no transition matches). -/
def matchingIndex (transitions : List Transition) (epoch_seconds : Int) : Int :=
  matchingIndexGo epoch_seconds transitions 0 (-1)

/-- zone_processor.py `_determine_fold(epoch_seconds, matching_index)`. -/
def _determine_fold (transitions : List Transition) (epoch_seconds : Int)
    (matching_index : Nat) : Int :=
  if matching_index < 1 then 0
  else
    let overlap_interval := _subtract_date_tuple
      (transitions.getD (matching_index - 1) default).until_date_time
      (transitions.getD matching_index default).start_date_time
    if overlap_interval ≤ 0 then 0
    else
      let seconds_from_zone_era_start :=
        epoch_seconds
          - (transitions.getD matching_index default).start_epoch_second
      if seconds_from_zone_era_start ≥ overlap_interval then 0
      else 1

/-- zone_processor.py `TransitionMatch`. -/
structure TransitionMatch where
  transition : Transition
  fold : Int
deriving DecidableEq, Repr

/-- zone_processor.py `_find_transition_for_seconds(epoch_seconds)` over the
active transition list. -/
def _find_transition_for_seconds (transitions : List Transition)
    (epoch_seconds : Int) : Option TransitionMatch :=
  let mi := matchingIndex transitions epoch_seconds
  if mi = -1 then none
  else
    some { transition := transitions.getD mi.toNat default
           fold := _determine_fold transitions epoch_seconds mi.toNat }

/-! ## Lookup by civil datetime (zone_processor.py) -/

/-- Loop of `_find_transition_for_datetime_python`, carrying the
`prev_exact` and `prev_transition` accumulators; `dt_fold` is `dt.fold`. -/
def findDatetimePythonGo (dt_time : DateTuple) (dt_fold : Int) :
    List Transition → Option Transition → Option Transition → Option Transition
  | [], prev_exact, prev_transition =>
      match prev_exact with
      | some t => some t
      | none => prev_transition
  | transition :: rest, prev_exact, prev_transition =>
      let start_time := transition.start_date_time
      let until_time := transition.until_date_time
      let exact_match := dtLeB start_time dt_time && dtLtB dt_time until_time
      if exact_match then
        if dt_fold == 0 then some transition
        else if prev_exact.isSome then some transition
        else findDatetimePythonGo dt_time dt_fold rest (some transition)
          (some transition)
      else if dtLtB dt_time start_time then
        if prev_exact.isSome then prev_exact
        else if dt_fold == 0 then prev_transition
        else some transition
      else
        findDatetimePythonGo dt_time dt_fold rest prev_exact (some transition)

/-- zone_processor.py `_find_transition_for_datetime_python(dt)` (PEP 495
behaviour), over the active transition list; `dt_time` is the wall
`DateTuple` of `dt` and `dt_fold` its fold attribute. -/
def _find_transition_for_datetime_python (transitions : List Transition)
    (dt_time : DateTuple) (dt_fold : Int) : Option Transition :=
  findDatetimePythonGo dt_time dt_fold transitions none none

/-- Loop of `_find_transition_for_datetime_cpp`: remember the last
transition whose `start_date_time` does not exceed `dt_time`. -/
def findDatetimeCppGo (dt_time : DateTuple) :
    List Transition → Option Transition → Option Transition
  | [], m => m
  | transition :: rest, m =>
      if dtLtB dt_time transition.start_date_time then m
      else findDatetimeCppGo dt_time rest (some transition)

/-- zone_processor.py `_find_transition_for_datetime_cpp(dt)`. -/
def _find_transition_for_datetime_cpp (transitions : List Transition)
    (dt_time : DateTuple) : Option Transition :=
  findDatetimeCppGo dt_time transitions none

/-- zone_processor.py `_find_transition_for_datetime(dt)`: dispatch on the
`use_python_transition` constructor flag. -/
def _find_transition_for_datetime (use_python_transition : Bool)
    (transitions : List Transition) (dt_time : DateTuple) (dt_fold : Int) :
    Option Transition :=
  if use_python_transition then
    _find_transition_for_datetime_python transitions dt_time dt_fold
  else
    _find_transition_for_datetime_cpp transitions dt_time

/-- zone_processor.py `get_timezone_info_for_datetime(dt)`, over the active
transition list produced by `init_for_year(dt.year)`: find the transition
and convert it with `fold=dt.fold`. -/
def get_timezone_info_for_datetime (use_python_transition : Bool)
    (transitions : List Transition) (dt_time : DateTuple) (dt_fold : Int) :
    Option OffsetInfo :=
  match _find_transition_for_datetime use_python_transition transitions
      dt_time dt_fold with
  | none => none
  | some transition => some (_to_offset_info transition dt_fold)

/-! ## Insertion-sorted add (zone_processor.py) -/

/-- zone_processor.py `_compare_date_tuple(a, b)`: three-way comparison on
the (y, M, d) components only — the `ss` and `f` fields are not consulted. -/
def _compare_date_tuple (a b : DateTuple) : Int :=
  if a.y < b.y then -1 else if a.y > b.y then 1
  else if a.M < b.M then -1 else if a.M > b.M then 1
  else if a.d < b.d then -1 else if a.d > b.d then 1
  else 0

/-- One iteration of the `_add_transition_sorted` loop at index `i ≥ 1`:
swap `transitions[i-1]` and `transitions[i]` when the latter's
`transition_time` compares strictly smaller by `_compare_date_tuple`. -/
def swapAt (l : List Transition) (i : Nat) : List Transition :=
  match l.get? i, l.get? (i - 1) with
  | some curr, some prev =>
      if _compare_date_tuple curr.transition_time prev.transition_time < 0 then
        (l.set (i - 1) curr).set i prev
      else l
  | _, _ => l

/-- The `for i in range(len - 1, 0, -1)` loop of `_add_transition_sorted`:
`bubbleLoop l k` performs the swap step at indices k, k-1, ..., 1. -/
def bubbleLoop (l : List Transition) : Nat → List Transition
  | 0 => l
  | k + 1 => bubbleLoop (swapAt l (k + 1)) k

/-- zone_processor.py `_add_transition_sorted(transitions, transition)`:
append, then bubble the appended element towards the front. -/
def _add_transition_sorted (transitions : List Transition)
    (transition : Transition) : List Transition :=
  let l := transitions ++ [transition]
  bubbleLoop l (l.length - 1)

/-- Ordered insertion into a list sorted by `_compare_date_tuple`: place `t`
before the first element whose date compares strictly greater. Used to
characterize `_add_transition_sorted` on sorted input. -/
def insertByDate (t : Transition) : List Transition → List Transition
  | [] => [t]
  | x :: xs =>
      if _compare_date_tuple t.transition_time x.transition_time < 0 then
        t :: x :: xs
      else
        x :: insertByDate t xs

/-- Date-only comparison order (the order maintained by
`_add_transition_sorted`): `a` is no later than `b` on (y, M, d). -/
def dateLe (a b : Transition) : Prop :=
  _compare_date_tuple a.transition_time b.transition_time ≤ 0

instance : DecidableRel dateLe := fun a b => by
  unfold dateLe; infer_instance

/-! ## init_for_year cache model (zone_processor.py) -/

/-- The mutable state of a `ZoneProcessor` relevant to `init_for_year`:
the cached year-of-interest and everything derived from it
(`matches`, `transitions`, `transition_storage`), abstracted as one value
of type `D`. -/
structure ProcessorState (D : Type) where
  year : Int
  derived : D
deriving DecidableEq, Repr

/-- The state after `ZoneProcessor.__init__`: `self.year = 0` and empty
derived containers. -/
def ProcessorState.fresh {D : Type} (empty : D) : ProcessorState D :=
  { year := 0, derived := empty }

/-- zone_processor.py `init_for_year(year)`: if `self.year == year` return
immediately (cache hit); otherwise set `self.year = year` and recompute the
derivation from scratch. `derive` stands for steps 1–5 of the pipeline,
which read only the immutable `zone_info` and `year` (the mutable fields
are reset before being rebuilt), hence are a function of `year` alone for a
fixed processor. -/
def init_for_year {D : Type} (derive : Int → D) (s : ProcessorState D)
    (year : Int) : ProcessorState D :=
  if s.year = year then s
  else { year := year, derived := derive year }

/-- Number of derivations performed by one `init_for_year(year)` call:
0 on a cache hit, 1 otherwise (literally the branch taken by the code). -/
def initRecomputations {D : Type} (s : ProcessorState D) (year : Int) : Nat :=
  if s.year = year then 0 else 1

/-! ## Concrete demonstration data

Small, explicitly constructed eras and transitions, used below to evaluate
the embedded functions at specific inputs (counterexamples and witnesses).
They mimic a standard-offset era followed by a +1h era. -/

/-- A simple era with standard offset 0. -/
def demoEraStd : ZoneEra := ⟨0, .dash, 0, "GMT", 2000, 6, 1, 7200, .w⟩

/-- A simple era with standard offset +1h. -/
def demoEraDst : ZoneEra := ⟨3600, .dash, 0, "CET", 32767, 1, 1, 0, .w⟩

/-- Matching era for `demoEraStd`. -/
def demoMatchStd : MatchingEra :=
  ⟨⟨1999, 12, 1, 0, .w⟩, ⟨2000, 6, 1, 7200, .w⟩, demoEraStd⟩

/-- Matching era for `demoEraDst`. -/
def demoMatchDst : MatchingEra :=
  ⟨⟨2000, 6, 1, 7200, .w⟩, ⟨2001, 2, 1, 0, .w⟩, demoEraDst⟩

/-- Transition generated from `demoMatchStd` (total offset 0). -/
def demoTransitionStd : Transition :=
  { matching_era := demoMatchStd
    transition_time := ⟨1999, 12, 1, 0, .w⟩
    transition_time_s := default
    transition_time_u := default
    start_date_time := demoMatchStd.start_date_time
    until_date_time := demoMatchStd.until_date_time
    start_epoch_second := 0
    original_transition_time := none
    abbrevStr := ""
    zone_rule := none
    is_active := true }

/-- Transition generated from `demoMatchDst` (total offset +1h), whose wall
transition time 02:00 belongs to the previous offset. -/
def demoTransitionDst : Transition :=
  { demoTransitionStd with
    matching_era := demoMatchDst
    transition_time := ⟨2000, 6, 1, 7200, .w⟩
    start_date_time := demoMatchDst.start_date_time
    until_date_time := demoMatchDst.until_date_time }

/-- Input list for `_generate_start_until_times` demonstrations. -/
def demoGenList : List Transition := [demoTransitionStd, demoTransitionDst]

/-- A transition on 2000-01-01 at second 100. -/
def demoAddJan : Transition :=
  { demoTransitionStd with transition_time := ⟨2000, 1, 1, 100, .w⟩ }

/-- A transition on the same day, at the earlier second 50. -/
def demoAddJanEarlier : Transition :=
  { demoTransitionStd with transition_time := ⟨2000, 1, 1, 50, .w⟩ }

/-- A transition on 2000-02-01. -/
def demoAddFeb : Transition :=
  { demoTransitionStd with transition_time := ⟨2000, 2, 1, 0, .w⟩ }

/-- First element of a lookup-by-seconds list: starts at epoch second 100,
wall interval 00:00–02:00 of 2000-01-01. -/
def demoSecFirst : Transition :=
  { demoTransitionStd with
    start_date_time := ⟨2000, 1, 1, 0, .w⟩
    until_date_time := ⟨2000, 1, 1, 7200, .w⟩
    start_epoch_second := 100 }

/-- Second element: starts at epoch second 200 with wall start 01:00 of the
same day, so the two transitions overlap by 3600 wall seconds. -/
def demoSecSecond : Transition :=
  { demoTransitionDst with
    start_date_time := ⟨2000, 1, 1, 3600, .w⟩
    until_date_time := ⟨2000, 10, 29, 3600, .w⟩
    start_epoch_second := 200 }

/-- Lookup-by-seconds demonstration list. -/
def demoSecList : List Transition := [demoSecFirst, demoSecSecond]

/-- Earlier transition around a spring-forward gap: wall interval ends at
02:00 of 2000-04-02. -/
def demoGapPrev : Transition :=
  { demoTransitionStd with
    start_date_time := ⟨2000, 1, 1, 0, .w⟩
    until_date_time := ⟨2000, 4, 2, 7200, .w⟩ }

/-- Later transition around the gap: wall interval begins at 03:00 of
2000-04-02, leaving 02:00–03:00 nonexistent. -/
def demoGapNext : Transition :=
  { demoTransitionDst with
    start_date_time := ⟨2000, 4, 2, 10800, .w⟩
    until_date_time := ⟨2000, 10, 29, 3600, .w⟩ }

/-- Gap demonstration list. -/
def demoGapList : List Transition := [demoGapPrev, demoGapNext]

/-- A civil time inside the 02:00–03:00 gap. -/
def demoGapTime : DateTuple := ⟨2000, 4, 2, 9000, .w⟩

/-- Sortedness of a transition list by `start_epoch_second` — the order the
pipeline guarantees for the active list (spec property P1). -/
def startEpochSorted (transitions : List Transition) : Prop :=
  List.Pairwise
    (fun a b => a.start_epoch_second ≤ b.start_epoch_second) transitions

/-! # Theorems -/

/-! ### C1: epoch constants -/

/-- C1: The claim that all conversions between unix seconds and internal
epoch seconds go through one single epoch constant fails on this code: the
post-pass `_generate_start_until_times` anchors each transition's
`start_epoch_second` at `ACETIME_EPOCH = datetime(2000, 1, 1)` (946684800
unix seconds), while `get_timezone_info_for_seconds` / `_init_for_second`
derive the window year with `SECONDS_SINCE_UNIX_EPOCH`, anchored at
`EPOCH_YEAR = 2050` (2524608000 unix seconds). In particular the query
`epoch_seconds = 0` is interpreted as year 2050 by `_init_for_second`
although the transition anchors it would be compared against are
2000-based. -/
theorem C1_epoch_constants_differ :
    SECONDS_SINCE_UNIX_EPOCH = 2524608000 ∧
    ACETIME_EPOCH_unix_seconds = 946684800 ∧
    SECONDS_SINCE_UNIX_EPOCH ≠ ACETIME_EPOCH_unix_seconds ∧
    _init_for_second_year 0 = 2050 := by decide

/-! ### C2: wall bounds of consecutive transitions -/

/-- `setStartAndEpoch` leaves the `transition_time` field unchanged. -/
theorem setStartAndEpoch_transition_time (prev t : Transition) :
    (setStartAndEpoch prev t).transition_time = t.transition_time := rfl

/-- `genStartUntilAux` emits one transition per input plus the pending
previous one. -/
theorem genStartUntilAux_length (prev : Transition) (l : List Transition) :
    (genStartUntilAux prev l).length = l.length + 1 := by
  induction l generalizing prev with
  | nil => rfl
  | cons t rest ih => simp [genStartUntilAux, ih]

/-- The head of `genStartUntilAux prev l` carries `prev`'s transition
time (only `until_date_time`, `start_date_time` and `start_epoch_second`
are rewritten by the walk). -/
theorem genStartUntilAux_head_transition_time (prev : Transition)
    (l : List Transition) :
    ((genStartUntilAux prev l).getD 0 default).transition_time
      = prev.transition_time := by
  cases l with
  | nil => rfl
  | cons t rest => rfl

/-- In the output of `genStartUntilAux`, each transition's
`until_date_time` is the next transition's raw `transition_time`. -/
theorem genStartUntilAux_until (prev : Transition) (l : List Transition)
    (i : Nat) (h : i + 1 < (genStartUntilAux prev l).length) :
    ((genStartUntilAux prev l).getD i default).until_date_time
      = ((genStartUntilAux prev l).getD (i + 1) default).transition_time := by
  induction l generalizing prev i with
  | nil => simp [genStartUntilAux_length] at h
  | cons t rest ih =>
    cases i with
    | zero =>
        simp only [genStartUntilAux, List.getD_cons_zero, List.getD_cons_succ]
        rw [genStartUntilAux_head_transition_time]
        rfl
    | succ j =>
        have hlen : j + 1 < (genStartUntilAux (setStartAndEpoch prev t)
            rest).length := by
          rw [genStartUntilAux_length] at h ⊢
          simpa using Nat.lt_of_succ_lt_succ h
        simpa only [genStartUntilAux, List.getD_cons_succ] using
          ih (setStartAndEpoch prev t) j hlen

/-- C2 (counterexample): after the post-pass on `demoGenList` (a 0-offset
transition followed by a +1h one at wall 02:00), the first transition's
`until_date_time` reads 02:00 while the second's `start_date_time` reads
03:00 — the claimed tuple equality of the seconds-in-day fields fails. -/
theorem C2_counterexample :
    ((_generate_start_until_times demoGenList).getD 0
        default).until_date_time.ss = 7200 ∧
    ((_generate_start_until_times demoGenList).getD 1
        default).start_date_time.ss = 10800 ∧
    ((_generate_start_until_times demoGenList).getD 0
        default).until_date_time.ss
      ≠ ((_generate_start_until_times demoGenList).getD 1
          default).start_date_time.ss := by decide

/-- C2 (amended): after `_generate_start_until_times`, for every index
`i > 0` of the transition list, `transitions[i-1].until_date_time` equals
`transitions[i].transition_time` — the current transition's wall
transition time, still expressed with the previous transition's UTC
offset. It equals `transitions[i].start_date_time` (the same instant
re-expressed in the current transition's own offset) as a tuple only when
the two consecutive total offsets agree. -/
theorem C2_until_matches_transition_time (transitions : List Transition)
    (i : Nat)
    (h : i + 1 < (_generate_start_until_times transitions).length) :
    ((_generate_start_until_times transitions).getD i
        default).until_date_time
      = ((_generate_start_until_times transitions).getD (i + 1)
          default).transition_time := by
  cases transitions with
  | nil => simp [_generate_start_until_times] at h
  | cons t0 rest => exact genStartUntilAux_until _ _ i h

/-- C2 witness: the amended identity evaluated at index 1 of the concrete
two-transition list. -/
theorem C2_until_matches_transition_time_witness :
    0 + 1 < (_generate_start_until_times demoGenList).length ∧
    ((_generate_start_until_times demoGenList).getD 0
        default).until_date_time
      = ((_generate_start_until_times demoGenList).getD 1
          default).transition_time :=
  ⟨by decide, C2_until_matches_transition_time demoGenList 0 (by decide)⟩

/-! ### C3: exact-day rule encoding -/

/-- C3 (counterexample): with `weekday = 0` and a negative exact-day spec,
`calc_day_of_month` returns the day spec as given, not its absolute
value (the claim demands (3, 5) here). -/
theorem C3_counterexample :
    calc_day_of_month 2000 3 0 (-5) = (3, -5) ∧
    calc_day_of_month 2000 3 0 (-5) ≠ ((3 : Int), (5 : Int)) := by decide

/-- C3 (amended): for every year, month and day_spec, when `weekday = 0`
the computation `calc_day_of_month(year, month, 0, day_spec)` returns the
pair (month, day_spec) — the month unchanged and the day spec passed
through unchanged; this coincides with (M, |day_spec|) exactly when
day_spec ≥ 0. -/
theorem C3_exact_day_passthrough (year month day_spec : Int) :
    calc_day_of_month year month 0 day_spec = (month, day_spec) := rfl

/-! ### C4: lookup by epoch seconds -/

/-- If the first element already starts after the query, the scan keeps
its initial matching index. -/
theorem matchingIndexGo_head_gt (s : Int) (t : Transition)
    (rest : List Transition) (i : Nat) (m : Int)
    (h : s < t.start_epoch_second) :
    matchingIndexGo s (t :: rest) i m = m := by
  unfold matchingIndexGo
  rw [if_pos h]

/-- If every element starts after the query, the scan keeps its initial
matching index. -/
theorem matchingIndexGo_all_gt (s : Int) (l : List Transition) (i : Nat)
    (m : Int) (h : ∀ t ∈ l, s < t.start_epoch_second) :
    matchingIndexGo s l i m = m := by
  cases l with
  | nil => rfl
  | cons t rest =>
      exact matchingIndexGo_head_gt s t rest i m
        (h t (List.mem_cons_self t rest))

/-- The scan either keeps its initial value or returns a position inside
the list, offset by the running index. -/
theorem matchingIndexGo_ge (s : Int) (l : List Transition) (i : Nat)
    (m : Int) :
    matchingIndexGo s l i m = m ∨
    ∃ k : Nat, k < l.length ∧
      matchingIndexGo s l i m = ((i + k : Nat) : Int) := by
  induction l generalizing i m with
  | nil => exact Or.inl rfl
  | cons t rest ih =>
      unfold matchingIndexGo
      by_cases hgt : t.start_epoch_second > s
      · rw [if_pos hgt]; exact Or.inl rfl
      · rw [if_neg hgt]
        rcases ih (i + 1) i with h0 | ⟨k, hk, he⟩
        · refine Or.inr ⟨0, by simp, ?_⟩
          rw [h0]; norm_num
        · refine Or.inr ⟨k + 1, by simpa using Nat.succ_lt_succ hk, ?_⟩
          rw [he]; congr 1; omega

/-- On a list sorted by `start_epoch_second`, the scan lands exactly on
position `k` when the element there does not exceed the query but the
next one (if any) does. -/
theorem matchingIndexGo_exact (s : Int) (l : List Transition) (i0 : Nat)
    (m : Int) (k : Nat) (hs : startEpochSorted l) (hk : k < l.length)
    (hle : (l.getD k default).start_epoch_second ≤ s)
    (hnext : k + 1 = l.length ∨
      s < (l.getD (k + 1) default).start_epoch_second) :
    matchingIndexGo s l i0 m = ((i0 + k : Nat) : Int) := by
  induction l generalizing i0 m k with
  | nil => simp at hk
  | cons t rest ih =>
      rcases List.pairwise_cons.mp hs with ⟨hincr, hrest⟩
      cases k with
      | zero =>
          rw [List.getD_cons_zero] at hle
          unfold matchingIndexGo
          rw [if_neg (by omega)]
          cases rest with
          | nil => simp [matchingIndexGo]
          | cons r rest2 =>
              rcases hnext with hlen | hgt
              · simp at hlen
              · rw [List.getD_cons_succ, List.getD_cons_zero] at hgt
                rw [matchingIndexGo_all_gt s (r :: rest2) (i0 + 1) i0 ?_]
                · norm_num
                · intro x hx
                  rcases List.mem_cons.mp hx with rfl | hx2
                  · exact hgt
                  · rcases List.pairwise_cons.mp hrest with ⟨hr2, _⟩
                    exact lt_of_lt_of_le hgt (hr2 x hx2)
      | succ j =>
          rw [List.getD_cons_succ] at hle
          have hjlen : j < rest.length := by
            simpa using Nat.lt_of_succ_lt_succ hk
          have htle : t.start_epoch_second ≤ s := by
            refine le_trans ?_ hle
            have hmem : rest.getD j default ∈ rest := by
              rw [List.getD_eq_getElem rest default hjlen]
              exact List.getElem_mem hjlen
            exact hincr _ hmem
          unfold matchingIndexGo
          rw [if_neg (by omega)]
          have hnext2 : j + 1 = rest.length ∨
              s < (rest.getD (j + 1) default).start_epoch_second := by
            rcases hnext with hlen | hgt
            · exact Or.inl (by simpa using hlen)
            · rw [List.getD_cons_succ] at hgt
              exact Or.inr hgt
          rw [ih (i0 + 1) i0 j hrest hjlen hle hnext2]
          congr 1; omega

/-- C4: characterization of `_find_transition_for_seconds` and
`_determine_fold` on a transition list sorted by `start_epoch_second`
(the order the pipeline guarantees). The lookup returns `none` exactly
when no transition has `start_epoch_second ≤ s`; otherwise it returns the
transition at the largest index `i` with `start_epoch_second ≤ s`
together with a fold that is 0 at `i = 0`, and for `i ≥ 1` equals 1
exactly when `overlap = subtract(transitions[i-1].until,
transitions[i].start)` is positive and `s - transitions[i].start_epoch_second
< overlap`. -/
theorem C4_find_for_seconds (transitions : List Transition) (s : Int)
    (hs : startEpochSorted transitions) :
    (_find_transition_for_seconds transitions s = none ↔
      ∀ t ∈ transitions, s < t.start_epoch_second) ∧
    (∀ i : Nat, i < transitions.length →
      (transitions.getD i default).start_epoch_second ≤ s →
      (∀ j : Nat, j < transitions.length →
        (transitions.getD j default).start_epoch_second ≤ s → j ≤ i) →
      (_find_transition_for_seconds transitions s
          = some ⟨transitions.getD i default,
              _determine_fold transitions s i⟩ ∧
       (i = 0 → _determine_fold transitions s i = 0) ∧
       (1 ≤ i →
         (_determine_fold transitions s i = 1 ↔
           0 < _subtract_date_tuple
               (transitions.getD (i - 1) default).until_date_time
               (transitions.getD i default).start_date_time ∧
           s - (transitions.getD i default).start_epoch_second
             < _subtract_date_tuple
                 (transitions.getD (i - 1) default).until_date_time
                 (transitions.getD i default).start_date_time)))) := by
  constructor
  · constructor
    · intro hnone t ht
      by_contra hgt
      push_neg at hgt
      cases transitions with
      | nil => simp at ht
      | cons t0 rest =>
          have ht0 : t0.start_epoch_second ≤ s := by
            rcases List.mem_cons.mp ht with rfl | hmem
            · exact hgt
            · rcases List.pairwise_cons.mp hs with ⟨hincr, _⟩
              exact le_trans (hincr t hmem) hgt
          have hmi : 0 ≤ matchingIndex (t0 :: rest) s := by
            unfold matchingIndex matchingIndexGo
            rw [if_neg (by omega)]
            rcases matchingIndexGo_ge s rest (0 + 1) ((0 : ℕ) : ℤ)
              with h0 | ⟨k, _, he⟩
            · rw [h0]; simp
            · rw [he]; omega
          simp only [_find_transition_for_seconds] at hnone
          rw [if_neg (by omega)] at hnone
          exact Option.some_ne_none _ hnone
    · intro hall
      unfold _find_transition_for_seconds matchingIndex
      rw [matchingIndexGo_all_gt s transitions 0 (-1) hall]
      rfl
  · intro i hi hle hmax
    have hmi : matchingIndex transitions s = ((i : Nat) : Int) := by
      have hnext : i + 1 = transitions.length ∨
          s < (transitions.getD (i + 1) default).start_epoch_second := by
        rcases Nat.lt_or_ge (i + 1) transitions.length with hlt | hge
        · right
          by_contra hle2
          push_neg at hle2
          exact absurd (hmax (i + 1) hlt hle2) (by omega)
        · left; omega
      have h := matchingIndexGo_exact s transitions 0 (-1) i hs hi hle hnext
      simpa using h
    refine ⟨?_, ?_, ?_⟩
    · simp only [_find_transition_for_seconds]
      rw [hmi, if_neg (by omega), Int.toNat_natCast]
    · intro h0
      subst h0
      unfold _determine_fold
      rw [if_pos (by omega)]
    · intro h1
      simp only [_determine_fold]
      rw [if_neg (by omega)]
      split_ifs with h2 h3
      · constructor
        · intro hh; exact absurd hh (by norm_num)
        · intro hh; omega
      · constructor
        · intro hh; exact absurd hh (by norm_num)
        · intro hh; omega
      · constructor
        · intro _; exact ⟨by omega, by omega⟩
        · intro _; rfl

/-- C4 witness: the characterization applied to the concrete sorted
two-transition list at query 201, whose largest matching index is 1 and
which lies inside the 3600-second overlap, so the fold is 1. -/
theorem C4_find_for_seconds_witness :
    startEpochSorted demoSecList ∧
    _find_transition_for_seconds demoSecList 201
      = some ⟨demoSecList.getD 1 default,
          _determine_fold demoSecList 201 1⟩ ∧
    _determine_fold demoSecList 201 1 = 1 :=
  ⟨by unfold startEpochSorted; decide,
   ((C4_find_for_seconds demoSecList 201
      (by unfold startEpochSorted; decide)).2 1 (by decide) (by decide)
      (fun j hj _ => by simp [demoSecList] at hj; omega)).1,
   by decide⟩

/-! ### C5: gap law of the PEP 495 civil lookup -/

/-- Characterization of the lexicographic strict comparison. -/
theorem dtLtB_eq_true_iff (a b : DateTuple) :
    dtLtB a b = true ↔
      (a.y < b.y ∨ (a.y = b.y ∧ (a.M < b.M ∨ (a.M = b.M ∧
        (a.d < b.d ∨ (a.d = b.d ∧ (a.ss < b.ss ∨ (a.ss = b.ss ∧
          suffixRank a.f < suffixRank b.f)))))))) := by
  simp [dtLtB, Bool.or_eq_true, Bool.and_eq_true, decide_eq_true_eq]

/-- Characterization of the lexicographic non-strict comparison. -/
theorem dtLeB_eq_true_iff (a b : DateTuple) :
    dtLeB a b = true ↔ (dtLtB a b = true ∨ a = b) := by
  simp [dtLeB, Bool.or_eq_true, beq_iff_eq]

/-- `a <= b` excludes `b < a` (lexicographic order on tuples). -/
theorem dtLeB_not_lt (a b : DateTuple) (h : dtLeB a b = true) :
    dtLtB b a = false := by
  rcases (dtLeB_eq_true_iff a b).mp h with hlt | rfl
  · cases hba : dtLtB b a with
    | false => rfl
    | true =>
        rw [dtLtB_eq_true_iff] at hlt hba
        exfalso
        omega
  · cases hba : dtLtB a a with
    | false => rfl
    | true =>
        rw [dtLtB_eq_true_iff] at hba
        exfalso
        omega

/-- `b < a` excludes `a <= b` (lexicographic order on tuples). -/
theorem dtLtB_not_le (a b : DateTuple) (h : dtLtB b a = true) :
    dtLeB a b = false := by
  cases hab : dtLeB a b with
  | false => rfl
  | true => rw [dtLeB_not_lt a b hab] at h; cases h

/-- Scan prefix elimination: transitions whose wall interval lies entirely
at or before the query (start ≤ dt and until ≤ dt) are neither exact
matches nor gap triggers, so the scan walks past them, remembering the
last one as `prev_transition`. -/
theorem findDatetimePythonGo_skip (dt_time : DateTuple) (dt_fold : Int)
    (front : List Transition) (prevT : Transition) (l : List Transition)
    (pe pt : Option Transition)
    (hfront : ∀ x ∈ front ++ [prevT],
      dtLeB x.start_date_time dt_time = true ∧
      dtLeB x.until_date_time dt_time = true) :
    findDatetimePythonGo dt_time dt_fold (front ++ prevT :: l) pe pt
      = findDatetimePythonGo dt_time dt_fold l pe (some prevT) := by
  induction front generalizing pt with
  | nil =>
      obtain ⟨hstart, huntil⟩ := hfront prevT (by simp)
      show findDatetimePythonGo dt_time dt_fold (prevT :: l) pe pt = _
      simp [findDatetimePythonGo, dtLeB_not_lt _ _ huntil,
        dtLeB_not_lt _ _ hstart]
  | cons x front2 ih =>
      obtain ⟨hstart, huntil⟩ := hfront x (by simp)
      show findDatetimePythonGo dt_time dt_fold
          (x :: (front2 ++ prevT :: l)) pe pt = _
      simp only [findDatetimePythonGo, dtLeB_not_lt _ _ huntil,
        dtLeB_not_lt _ _ hstart, Bool.and_false, Bool.false_eq_true,
        if_false]
      exact ih (some x) (fun z hz => hfront z (by simpa using Or.inr hz))

/-- C5: the gap law of `_find_transition_for_datetime_python`
(`use_python_transition` lookup). If every transition before index `i`
has both `start_date_time ≤ dt` and `until_date_time ≤ dt` (so none
contains `dt` and none starts after it — `dt` lies in a gap, with no
earlier exact match) and transition `i` is the first with
`start_date_time > dt`, then the lookup returns transition `i-1` when
`dt.fold = 0` and transition `i` when `dt.fold = 1`. -/
theorem C5_gap_law (front rest : List Transition) (prevT t : Transition)
    (dt_time : DateTuple) (dt_fold : Int)
    (hfront : ∀ x ∈ front ++ [prevT],
      dtLeB x.start_date_time dt_time = true ∧
      dtLeB x.until_date_time dt_time = true)
    (hgap : dtLtB dt_time t.start_date_time = true) :
    (dt_fold = 0 →
      _find_transition_for_datetime_python
        (front ++ prevT :: t :: rest) dt_time dt_fold = some prevT) ∧
    (dt_fold = 1 →
      _find_transition_for_datetime_python
        (front ++ prevT :: t :: rest) dt_time dt_fold = some t) := by
  unfold _find_transition_for_datetime_python
  rw [findDatetimePythonGo_skip dt_time dt_fold front prevT (t :: rest)
    none none hfront]
  have hexact : (dtLeB t.start_date_time dt_time
      && dtLtB dt_time t.until_date_time) = false := by
    rw [dtLtB_not_le _ _ hgap, Bool.false_and]
  constructor <;> intro hf <;> subst hf <;>
    simp [findDatetimePythonGo, hexact, hgap]

/-- C5 witness: the gap law evaluated at the concrete 02:30-style gap
query between the two demo transitions. -/
theorem C5_gap_law_witness :
    _find_transition_for_datetime_python demoGapList demoGapTime 0
        = some demoGapPrev ∧
    _find_transition_for_datetime_python demoGapList demoGapTime 1
        = some demoGapNext :=
  ⟨(C5_gap_law [] [] demoGapPrev demoGapNext demoGapTime 0 (by decide)
      (by decide)).1 rfl,
   (C5_gap_law [] [] demoGapPrev demoGapNext demoGapTime 1 (by decide)
      (by decide)).2 rfl⟩

/-! ### C6: most recent prior year -/

/-- C6 (counterexample): when `from_year ≥ start_year` the function
returns -1, not the `INVALID_YEAR` sentinel (-32768) demanded by the
claim. -/
theorem C6_counterexample :
    _get_most_recent_prior_year 5 10 3 4 = -1 ∧
    _get_most_recent_prior_year 5 10 3 4 ≠ INVALID_YEAR := by decide

/-- C6 (amended): for every rule bounds and matching-era interior bounds,
`_get_most_recent_prior_year` returns min(to_year, start_year - 1) when
from_year < start_year, and the sentinel -1 (tested by the caller as
`prior_year >= 0`) otherwise. -/
theorem C6_most_recent_prior_year
    (from_year to_year start_year end_year : Int) :
    _get_most_recent_prior_year from_year to_year start_year end_year
      = if from_year < start_year then min to_year (start_year - 1)
        else -1 := by
  unfold _get_most_recent_prior_year
  split_ifs <;> omega

/-! ### C7: insertion-sorted transition add -/

/-- `_compare_date_tuple` is negative exactly for a strictly earlier
(y, M, d) date. -/
theorem compare_date_tuple_lt_iff (a b : DateTuple) :
    _compare_date_tuple a b < 0 ↔
      (a.y < b.y ∨ (a.y = b.y ∧ (a.M < b.M ∨ (a.M = b.M ∧ a.d < b.d)))) := by
  unfold _compare_date_tuple
  split_ifs <;> constructor <;> intro h2 <;> omega

/-- `_compare_date_tuple` is non-positive exactly for a no-later
(y, M, d) date. -/
theorem compare_date_tuple_le_iff (a b : DateTuple) :
    _compare_date_tuple a b ≤ 0 ↔
      (a.y < b.y ∨ (a.y = b.y ∧ (a.M < b.M ∨ (a.M = b.M ∧ a.d ≤ b.d)))) := by
  unfold _compare_date_tuple
  split_ifs <;> constructor <;> intro h2 <;> omega

/-- A no-later date excludes a strictly-earlier comparison the other way:
the no-swap condition of the insertion loop on a sorted pair. -/
theorem dateLe_not_swap (a b : Transition) (h : dateLe a b) :
    ¬ _compare_date_tuple b.transition_time a.transition_time < 0 := by
  unfold dateLe at h
  rw [compare_date_tuple_le_iff] at h
  rw [compare_date_tuple_lt_iff]
  omega

/-- `dateLe` is transitive. -/
theorem dateLe_trans (a b c : Transition) (h1 : dateLe a b)
    (h2 : dateLe b c) : dateLe a c := by
  unfold dateLe at h1 h2 ⊢
  rw [compare_date_tuple_le_iff] at h1 h2 ⊢
  omega

/-- The swap step preserves the length. -/
theorem swapAt_length (l : List Transition) (i : Nat) :
    (swapAt l i).length = l.length := by
  unfold swapAt
  split
  · split
    · simp [List.length_set]
    · rfl
  · rfl

/-- On a date-sorted list the swap step does nothing. -/
theorem swapAt_sorted (l : List Transition) (i : Nat)
    (h : List.Pairwise dateLe l) : swapAt l i = l := by
  unfold swapAt
  split
  next curr prev h1 h2 =>
    rw [if_neg]
    rcases Nat.eq_zero_or_pos i with rfl | hpos
    · simp only [Nat.zero_sub] at h2
      rw [h1] at h2
      injection h2 with h2
      subst h2
      rw [compare_date_tuple_lt_iff]
      omega
    · rw [List.get?_eq_getElem?] at h1 h2
      have hi : i < l.length := by
        by_contra hge
        rw [List.getElem?_eq_none (by omega)] at h1
        cases h1
      have hi1 : i - 1 < l.length := by omega
      rw [List.getElem?_eq_getElem hi] at h1
      rw [List.getElem?_eq_getElem hi1] at h2
      injection h1 with h1
      injection h2 with h2
      have hrel : dateLe (l.get ⟨i - 1, hi1⟩) (l.get ⟨i, hi⟩) :=
        List.pairwise_iff_get.mp h ⟨i - 1, hi1⟩ ⟨i, hi⟩ (by simp; omega)
      subst h1
      subst h2
      exact dateLe_not_swap _ _ hrel
  next => rfl

/-- On a date-sorted list the whole insertion loop does nothing. -/
theorem bubbleLoop_sorted (l : List Transition) (k : Nat)
    (h : List.Pairwise dateLe l) : bubbleLoop l k = l := by
  induction k with
  | zero => rfl
  | succ k ih =>
      show bubbleLoop (swapAt l (k + 1)) k = l
      rw [swapAt_sorted l (k + 1) h]
      exact ih

/-- The swap step at an index inside the left part of an append acts on
the left part only. -/
theorem swapAt_append (a b : List Transition) (i : Nat)
    (hi : i < a.length) :
    swapAt (a ++ b) i = swapAt a i ++ b := by
  have e1 : (a ++ b).get? i = a.get? i := by
    rw [List.get?_eq_getElem?, List.get?_eq_getElem?,
      List.getElem?_append, if_pos hi]
  have e2 : (a ++ b).get? (i - 1) = a.get? (i - 1) := by
    rw [List.get?_eq_getElem?, List.get?_eq_getElem?,
      List.getElem?_append, if_pos (by omega)]
  unfold swapAt
  rw [e1, e2]
  split
  next curr prev h1 h2 =>
    split
    · rw [List.set_append, if_pos (by omega), List.set_append,
        if_pos (by rw [List.length_set]; omega)]
    · rfl
  next => rfl

/-- The insertion loop over indices inside the left part of an append
acts on the left part only. -/
theorem bubbleLoop_append (a b : List Transition) (k : Nat)
    (hk : k < a.length) :
    bubbleLoop (a ++ b) k = bubbleLoop a k ++ b := by
  induction k generalizing a with
  | zero => rfl
  | succ k ih =>
      show bubbleLoop (swapAt (a ++ b) (k + 1)) k = _
      rw [swapAt_append a b (k + 1) hk]
      exact ih (swapAt a (k + 1)) (by rw [swapAt_length]; omega)

/-- `insertByDate` is a permutation of consing. -/
theorem insertByDate_perm (t : Transition) (l : List Transition) :
    (insertByDate t l).Perm (t :: l) := by
  induction l with
  | nil => exact List.Perm.refl _
  | cons x xs ih =>
      unfold insertByDate
      split
      · exact List.Perm.refl _
      · exact (ih.cons x).trans (List.Perm.swap t x xs)

/-- Inserting an element that is strictly earlier than the last element
commutes with dropping that last element. -/
theorem insertByDate_append_gt (t y : Transition) (ys : List Transition)
    (h : _compare_date_tuple t.transition_time y.transition_time < 0) :
    insertByDate t (ys ++ [y]) = insertByDate t ys ++ [y] := by
  induction ys with
  | nil => simp [insertByDate, h]
  | cons x xs ih =>
      show insertByDate t (x :: (xs ++ [y])) = _
      unfold insertByDate
      split_ifs with hc
      · simp
      · simp [ih]

/-- An element no earlier than every list element is inserted at the very
end. -/
theorem insertByDate_append_le (t : Transition) (l : List Transition)
    (h : ∀ x ∈ l,
      ¬ _compare_date_tuple t.transition_time x.transition_time < 0) :
    insertByDate t l = l ++ [t] := by
  induction l with
  | nil => rfl
  | cons x xs ih =>
      unfold insertByDate
      rw [if_neg (h x (by simp)), ih (fun z hz => h z (by simp [hz]))]
      rfl

/-- `insertByDate` preserves date-sortedness. -/
theorem insertByDate_sorted (t : Transition) (l : List Transition)
    (h : List.Pairwise dateLe l) :
    List.Pairwise dateLe (insertByDate t l) := by
  induction l with
  | nil => simp [insertByDate]
  | cons x xs ih =>
      rcases List.pairwise_cons.mp h with ⟨hx, hxs⟩
      unfold insertByDate
      split_ifs with hlt
      · refine List.pairwise_cons.mpr ⟨?_, h⟩
        intro z hz
        rcases List.mem_cons.mp hz with rfl | hz2
        · unfold dateLe
          rw [compare_date_tuple_le_iff]
          rw [compare_date_tuple_lt_iff] at hlt
          omega
        · have hxz := hx z hz2
          unfold dateLe at hxz ⊢
          rw [compare_date_tuple_le_iff] at hxz ⊢
          rw [compare_date_tuple_lt_iff] at hlt
          omega
      · refine List.pairwise_cons.mpr ⟨?_, ih hxs⟩
        intro z hz
        have hz3 : z = t ∨ z ∈ xs := by
          have hmem := (insertByDate_perm t xs).mem_iff.mp hz
          simpa using hmem
        rcases hz3 with rfl | hz4
        · unfold dateLe
          rw [compare_date_tuple_le_iff]
          rw [compare_date_tuple_lt_iff] at hlt
          omega
        · exact hx z hz4

/-- On a date-sorted list, the append-and-bubble of
`_add_transition_sorted` computes an ordered insertion (stable: the new
element lands after existing same-date elements, because the comparator
returns 0 on equal dates and the loop only swaps on strictly-negative
comparisons). -/
theorem addTransitionSorted_eq_insert (transitions : List Transition)
    (t : Transition) (h : List.Pairwise dateLe transitions) :
    _add_transition_sorted transitions t = insertByDate t transitions := by
  induction transitions using List.reverseRecOn with
  | nil => rfl
  | append_singleton ys y ih =>
      have hys : List.Pairwise dateLe ys := (List.pairwise_append.mp h).1
      have hall : ∀ a ∈ ys, dateLe a y :=
        fun a ha => (List.pairwise_append.mp h).2.2 a ha y (by simp)
      show bubbleLoop ((ys ++ [y]) ++ [t])
          (((ys ++ [y]) ++ [t]).length - 1) = _
      have hassoc : (ys ++ [y]) ++ [t] = ys ++ [y, t] := by simp
      have hlen : ((ys ++ [y]) ++ [t]).length - 1 = ys.length + 1 := by
        simp
      rw [hlen, hassoc]
      show bubbleLoop (swapAt (ys ++ [y, t]) (ys.length + 1)) ys.length = _
      have hget1 : (ys ++ [y, t]).get? (ys.length + 1) = some t := by
        rw [List.get?_eq_getElem?,
          List.getElem?_append_right (by omega)]
        simp
      have hget0 : (ys ++ [y, t]).get? (ys.length + 1 - 1) = some y := by
        rw [List.get?_eq_getElem?,
          List.getElem?_append_right (by omega)]
        simp
      unfold swapAt
      rw [hget1, hget0]
      show bubbleLoop
          (if _compare_date_tuple t.transition_time y.transition_time < 0
           then ((ys ++ [y, t]).set (ys.length + 1 - 1) t).set
               (ys.length + 1) y
           else ys ++ [y, t]) ys.length
        = insertByDate t (ys ++ [y])
      by_cases hcmp :
          _compare_date_tuple t.transition_time y.transition_time < 0
      · rw [if_pos hcmp]
        have hset : ((ys ++ [y, t]).set (ys.length + 1 - 1) t).set
            (ys.length + 1) y = (ys ++ [t]) ++ [y] := by
          rw [List.set_append, if_neg (by omega), List.set_append,
            if_neg (by omega)]
          simp
        rw [hset, bubbleLoop_append (ys ++ [t]) [y] ys.length (by simp)]
        have ih2 : bubbleLoop (ys ++ [t]) ys.length = insertByDate t ys := by
          have := ih hys
          simpa [_add_transition_sorted] using this
        rw [ih2, insertByDate_append_gt t y ys hcmp]
      · rw [if_neg hcmp]
        have hyt : dateLe y t := by
          unfold dateLe
          rw [compare_date_tuple_le_iff]
          rw [compare_date_tuple_lt_iff] at hcmp
          omega
        have hsorted2 : List.Pairwise dateLe (ys ++ [y, t]) := by
          rw [List.pairwise_append]
          refine ⟨hys, ?_, ?_⟩
          · refine List.pairwise_cons.mpr ⟨?_, List.pairwise_singleton _ _⟩
            intro z hz
            have hz2 : z = t := by simpa using hz
            subst hz2
            exact hyt
          · intro a ha b hb
            rcases List.mem_cons.mp hb with rfl | hb2
            · exact hall a ha
            · have hb3 : b = t := by simpa using hb2
              rw [hb3]
              exact dateLe_trans a y t (hall a ha) hyt
        rw [bubbleLoop_sorted _ _ hsorted2]
        rw [insertByDate_append_le t (ys ++ [y]) ?_]
        · simp
        · intro x hx
          rcases List.mem_append.mp hx with hx2 | hx2
          · have hxy := hall x hx2
            have hxt : dateLe x t := dateLe_trans x y t hxy hyt
            exact dateLe_not_swap x t hxt
          · have hx3 : x = y := by simpa using hx2
            rw [hx3]
            exact dateLe_not_swap y t hyt

/-- C7 (counterexample): the input list is sorted by the full
`transition_time` tuple, yet after `_add_transition_sorted` of a
same-day, earlier-seconds transition the result is not: the comparator
`_compare_date_tuple` ignores the seconds-in-day field, so the new
element stays appended after a same-date element with larger seconds. -/
theorem C7_counterexample :
    _add_transition_sorted [demoAddJan] demoAddJanEarlier
        = [demoAddJan, demoAddJanEarlier] ∧
    dtLtB demoAddJanEarlier.transition_time demoAddJan.transition_time
        = true := by decide

/-- C7 (amended): for every list sorted by the (year, month, day)
components of `transition_time` (the order actually tested by
`_compare_date_tuple`, which ignores seconds and suffix) and every new
transition, `_add_transition_sorted` leaves the list sorted in that
date-only order, with the new element included (the result is a
permutation of the input plus the new element); sortedness by the full
`transition_time` tuple is preserved only up to same-date ties. -/
theorem C7_add_transition_sorted (transitions : List Transition)
    (t : Transition) (h : List.Pairwise dateLe transitions) :
    List.Pairwise dateLe (_add_transition_sorted transitions t) ∧
    (_add_transition_sorted transitions t).Perm (transitions ++ [t]) := by
  rw [addTransitionSorted_eq_insert transitions t h]
  exact ⟨insertByDate_sorted t transitions h,
    (insertByDate_perm t transitions).trans
      (List.perm_append_singleton t transitions).symm⟩

/-- C7 witness: the amended invariant evaluated on the concrete sorted
two-element list with a same-date insertion. -/
theorem C7_add_transition_sorted_witness :
    List.Pairwise dateLe [demoAddJan, demoAddFeb] ∧
    List.Pairwise dateLe
      (_add_transition_sorted [demoAddJan, demoAddFeb]
        demoAddJanEarlier) ∧
    (_add_transition_sorted [demoAddJan, demoAddFeb]
        demoAddJanEarlier).Perm
      ([demoAddJan, demoAddFeb] ++ [demoAddJanEarlier]) :=
  ⟨by decide,
   (C7_add_transition_sorted [demoAddJan, demoAddFeb] demoAddJanEarlier
      (by decide)).1,
   (C7_add_transition_sorted [demoAddJan, demoAddFeb] demoAddJanEarlier
      (by decide)).2⟩

/-! ### C8: transition storage bookkeeping -/

/-- C8 (counterexample): `pop_transitions` subtracts without any guard, so
a single pop right after `clear()` drives the in-flight count
`index_free` negative, contrary to the claim. -/
theorem C8_counterexample :
    (runStorageOps TransitionStorage.clearState
        [StorageOp.pop 1]).index_free < 0 := by decide

/-- C8 (amended): after `clear()`, the peak counter `index_beyond` is
monotonically non-decreasing under every push/pop sequence, and the
in-flight count `index_free` never becomes negative provided each
`pop_transitions(n)` removes at most the current in-flight count (the
discipline the zone processor's call sites follow — the code itself does
not guard pops). -/
theorem C8_storage_invariants (s : TransitionStorage)
    (ops : List StorageOp) :
    (0 ≤ s.index_free → popsBounded s ops = true →
      0 ≤ (runStorageOps s ops).index_free) ∧
    s.index_beyond ≤ (runStorageOps s ops).index_beyond := by
  induction ops generalizing s with
  | nil => exact ⟨fun h _ => h, le_refl _⟩
  | cons op rest ih =>
    have hstep : runStorageOps s (op :: rest)
        = runStorageOps (applyStorageOp s op) rest := rfl
    rw [hstep]
    cases op with
    | push n =>
      refine ⟨fun h hb => (ih _).1 ?_ ?_, le_trans ?_ (ih _).2⟩
      · simp only [applyStorageOp, TransitionStorage.push_transitions]
        have : (0 : Int) ≤ (n : Int) := Int.natCast_nonneg n
        omega
      · exact hb
      · simp only [applyStorageOp, TransitionStorage.push_transitions]
        split <;> omega
    | pop n =>
      refine ⟨fun h hb => ?_, le_trans ?_ (ih _).2⟩
      · rcases Bool.and_eq_true_iff.mp hb with ⟨hle, hrest⟩
        refine (ih _).1 ?_ hrest
        have hle2 : (n : Int) ≤ s.index_free := of_decide_eq_true hle
        simp only [applyStorageOp, TransitionStorage.pop_transitions]
        omega
      · simp only [applyStorageOp, TransitionStorage.pop_transitions]
        exact le_rfl

/-- C8 witness: the amended invariant evaluated on the concrete sequence
push 2 then pop 1 after a clear. -/
theorem C8_storage_invariants_witness :
    (0 ≤ (runStorageOps TransitionStorage.clearState
        [StorageOp.push 2, StorageOp.pop 1]).index_free) ∧
    TransitionStorage.clearState.index_beyond
      ≤ (runStorageOps TransitionStorage.clearState
          [StorageOp.push 2, StorageOp.pop 1]).index_beyond :=
  ⟨(C8_storage_invariants TransitionStorage.clearState
      [StorageOp.push 2, StorageOp.pop 1]).1 (by decide) (by decide),
   (C8_storage_invariants TransitionStorage.clearState
      [StorageOp.push 2, StorageOp.pop 1]).2⟩

/-! ### C9: init_for_year caching -/

/-- C9 (counterexample): `ZoneProcessor.__init__` sets `self.year = 0`, so
on a fresh processor `init_for_year(0)` is a false cache hit: over two
consecutive calls the derivation runs zero times, not exactly once, and
the derived state keeps its initial empty value instead of the year-0
derivation. -/
theorem C9_counterexample :
    init_for_year (fun _ => true) (ProcessorState.fresh false) 0
        = ProcessorState.fresh false ∧
    (init_for_year (fun _ => true) (ProcessorState.fresh false) 0).derived
        = false ∧
    initRecomputations (ProcessorState.fresh false) 0
      + initRecomputations
          (init_for_year (fun _ => true) (ProcessorState.fresh false) 0) 0
        = 0 := by decide

/-- C9 (amended): two consecutive `init_for_year(Y)` calls always produce
the same final state as a single call; and for every `Y` different from
the currently cached year (in particular any `Y ≠ 0` on a fresh
processor, `0` being the constructor's sentinel cache key), the first call
performs the derivation, the second is a cache-hit no-op, and the
derivation is computed exactly once across the two calls. -/
theorem C9_init_for_year_cache {D : Type} (derive : Int → D)
    (s : ProcessorState D) (year : Int) :
    init_for_year derive (init_for_year derive s year) year
        = init_for_year derive s year ∧
    (s.year ≠ year →
      init_for_year derive s year
          = { year := year, derived := derive year } ∧
      initRecomputations s year
        + initRecomputations (init_for_year derive s year) year = 1) := by
  unfold init_for_year initRecomputations
  by_cases h : s.year = year <;> simp [h]

/-- C9 witness: the amended cache behaviour at the concrete fresh state
and year 5. -/
theorem C9_init_for_year_cache_witness :
    (ProcessorState.fresh false).year ≠ 5 ∧
    init_for_year (fun _ => true) (ProcessorState.fresh false) 5
        = { year := 5, derived := true } ∧
    initRecomputations (ProcessorState.fresh false) 5
      + initRecomputations
          (init_for_year (fun _ => true) (ProcessorState.fresh false) 5) 5
        = 1 :=
  ⟨by decide,
   ((C9_init_for_year_cache (fun _ => true)
      (ProcessorState.fresh false) 5).2 (by decide)).1,
   ((C9_init_for_year_cache (fun _ => true)
      (ProcessorState.fresh false) 5).2 (by decide)).2⟩

/-! ### C10: fold echoed by the civil lookup -/

/-- C10: whenever `get_timezone_info_for_datetime` returns an
`OffsetInfo`, the fold field of the result equals the queried datetime's
own fold attribute: it is passed through `_to_offset_info(transition,
fold=dt.fold)` unchanged, never recomputed from transition overlaps. -/
theorem C10_datetime_fold_echoed (use_python_transition : Bool)
    (transitions : List Transition) (dt_time : DateTuple) (dt_fold : Int)
    (info : OffsetInfo)
    (h : get_timezone_info_for_datetime use_python_transition transitions
        dt_time dt_fold = some info) :
    info.fold = dt_fold := by
  unfold get_timezone_info_for_datetime at h
  cases hf : _find_transition_for_datetime use_python_transition transitions
      dt_time dt_fold with
  | none => rw [hf] at h; cases h
  | some t =>
      rw [hf] at h
      injection h with h
      rw [← h]
      rfl

/-- C10 witness: the fold-echo property evaluated at the concrete gap
query with fold 1. -/
theorem C10_datetime_fold_echoed_witness :
    get_timezone_info_for_datetime true demoGapList demoGapTime 1
        = some (_to_offset_info demoGapNext 1) ∧
    (_to_offset_info demoGapNext 1).fold = 1 :=
  ⟨by decide,
   C10_datetime_fold_echoed true demoGapList demoGapTime 1 _ (by decide)⟩

end AceTime
